import Mathlib

/-!
Shallow embedding of the Cloud Tasks queue bridge (`createQueue` and its
helpers) together with the configuration surface (`JanWorldConfig`).
Strings of the source are modelled as lists of characters; the external
Cloud Tasks client, the JSON transport and the embedded world are
collaborators, modelled by their observable calls (`ExtCall`) and by
function parameters where the bridge only pipes data through them.
-/

/-- A JavaScript string, modelled as a list of characters. -/
abbrev Str := List Char

/-- The namespace prefix of step jobs, the literal `__wkf_step_`. -/
def wkfStep : Str := "__wkf_step_".data

/-- The namespace prefix of workflow jobs, the literal `__wkf_workflow_`. -/
def wkfWorkflow : Str := "__wkf_workflow_".data

/-- The `QueuePrefix` union type of the source: one of the two recognized
namespace prefixes. -/
inductive QueuePfx where
  | workflow
  | step
deriving DecidableEq

/-- The string carried by each `QueuePrefix` variant. -/
def QueuePfx.str : QueuePfx → Str
  | .workflow => wkfWorkflow
  | .step => wkfStep

/-- Errors thrown by the bridge: the `Invalid queue name` error of
`parseQueueName`, and errors of the external client propagated by
`ensureQueue` (identified by their numeric `code`). -/
inductive QError where
  | invalidQueueName (name : Str)
  | externalError (code : Nat)
deriving DecidableEq

/-- `parseQueueName` of the source: try the prefixes `__wkf_step_` then
`__wkf_workflow_` in order; on a match return the prefix and the rest of
the name (`name.slice(prefix.length)`); otherwise throw. -/
def parseQueueName (name : Str) : Except QError (QueuePfx × Str) :=
  if wkfStep.isPrefixOf name then
    Except.ok (QueuePfx.step, name.drop wkfStep.length)
  else if wkfWorkflow.isPrefixOf name then
    Except.ok (QueuePfx.workflow, name.drop wkfWorkflow.length)
  else
    Except.error (QError.invalidQueueName name)

/-- `JanWorldConfig` of `config.ts`. `queuePfx` and `queueConcurrency` are
the optional fields `queuePrefix` and `queueConcurrency`; `none` models an
absent field. -/
structure JanWorldConfig where
  connectionString : Str
  gcpProjectId : Str
  gcpLocation : Str
  queuePfx : Option Str
  queueConcurrency : Option Nat

/-- The effective queue-name prefix, `config.queuePrefix || 'workflow-'`:
a missing or empty (falsy) configured value falls back to `workflow-`. -/
def namePfx (c : JanWorldConfig) : Str :=
  match c.queuePfx with
  | none => "workflow-".data
  | some s => if s = [] then "workflow-".data else s

/-- The `Queues` record of the source: `__wkf_workflow_` maps to
`{prefix}flows` and `__wkf_step_` maps to `{prefix}steps`. -/
def Queues (c : JanWorldConfig) : QueuePfx → Str
  | .workflow => namePfx c ++ "flows".data
  | .step => namePfx c ++ "steps".data

/-- `client.queuePath(project, location, queue)` of the Cloud Tasks
client: the canonical resource path of a queue. -/
def queuePath (c : JanWorldConfig) (q : Str) : Str :=
  "projects/".data ++ c.gcpProjectId ++ "/locations/".data ++ c.gcpLocation
    ++ "/queues/".data ++ q

/-- `client.locationPath(project, location)` of the Cloud Tasks client. -/
def locationPath (c : JanWorldConfig) : Str :=
  "projects/".data ++ c.gcpProjectId ++ "/locations/".data ++ c.gcpLocation

/-- `client.taskPath(project, location, queue, task)` of the Cloud Tasks
client: the canonical resource path of a task. -/
def taskPath (c : JanWorldConfig) (q t : Str) : Str :=
  queuePath c q ++ "/tasks/".data ++ t

/-- The JSON task body built by `queue`: `{ id, data, messageId,
idempotencyKey, prefix }`, where `pfx` is the `prefix` field. -/
structure TaskBody where
  id : Str
  data : Str
  messageId : Str
  idempotencyKey : Option Str
  pfx : Str
deriving DecidableEq

/-- One observable call into the Cloud Tasks client. The optional `name`
of `createTask` is the named task identity; `none` is an anonymous
submission. -/
inductive ExtCall where
  | getQueue (path : Str)
  | createQueue (parent : Str) (name : Str) (rate : Nat)
  | createTask (parent : Str) (name : Option Str) (body : TaskBody)
deriving DecidableEq

/-- The rate limit used by `createQueue`,
`config.queueConcurrency || 10`: a missing or zero (falsy) configured
value falls back to `10`. -/
def effRate (c : JanWorldConfig) : Nat :=
  match c.queueConcurrency with
  | none => 10
  | some n => if n = 0 then 10 else n

/-- Outcome of `client.getQueue`: success, or a gRPC error with a numeric
`code` (`5` is NOT_FOUND). -/
inductive LookupResult where
  | ok
  | err (code : Nat)
deriving DecidableEq

/-- Result of one `ensureQueue` run: the calls made into the Cloud Tasks
client, in order, and either normal return or the propagated error code. -/
structure EnsureResult where
  calls : List ExtCall
  outcome : Except Nat Unit

/-- `ensureQueue` of the source, parametrized by the outcome of the
`getQueue` lookup: on success return; on error code 5 create the queue
under `locationPath` with rate `queueConcurrency || 10` and return; on any
other error rethrow it. -/
def ensureQueue (c : JanWorldConfig) (lookup : LookupResult) (queueName : Str) :
    EnsureResult :=
  let qp := queuePath c queueName
  match lookup with
  | .ok => ⟨[ExtCall.getQueue qp], Except.ok ()⟩
  | .err code =>
    if code = 5 then
      ⟨[ExtCall.getQueue qp, ExtCall.createQueue (locationPath c) qp (effRate c)],
        Except.ok ()⟩
    else
      ⟨[ExtCall.getQueue qp], Except.error code⟩

/-- A deterministic model of the Cloud Tasks service state for sequential
provisioning runs: the set of existing queue paths. A lookup succeeds
exactly when the path exists; otherwise it fails with NOT_FOUND (code 5). -/
def svcLookup (exs : List Str) (qp : Str) : LookupResult :=
  if qp ∈ exs then LookupResult.ok else LookupResult.err 5

/-- The effect of one client call on the service state: `createQueue` adds
the queue path, other calls leave the state unchanged. -/
def stepState (exs : List Str) : ExtCall → List Str
  | .createQueue _ qname _ => qname :: exs
  | _ => exs

/-- Run `ensureQueue` against the deterministic service model: the lookup
result comes from the current state and the calls made update it. Returns
the new state and the calls of this run. -/
def runEnsure (c : JanWorldConfig) (exs : List Str) (q : Str) :
    List Str × List ExtCall :=
  let r := ensureQueue c (svcLookup exs (queuePath c q)) q
  (r.calls.foldl stepState exs, r.calls)

/-- Number of `createQueue` calls in a call trace. -/
def countCreates (calls : List ExtCall) : Nat :=
  calls.countP (fun call =>
    match call with
    | ExtCall.createQueue _ _ _ => true
    | _ => false)

/-- The `opts` argument of `queue`. -/
structure QueueOpts where
  idempotencyKey : Option Str
deriving DecidableEq

/-- `opts?.idempotencyKey`: optional chaining through the optional `opts`. -/
def optsKey : Option QueueOpts → Option Str
  | some o => o.idempotencyKey
  | none => none

/-- Result of one dispatch: the calls made into the Cloud Tasks client, in
order, and either the returned message id or the thrown error. -/
structure DispatchOut where
  calls : List ExtCall
  result : Except QError Str

/-- The `queue` function of the source (the Task Dispatcher), parametrized
by the collaborators it pipes data through: `ser` is
`transport.serialize`, `lookup` the outcome of the `getQueue` lookup
inside `ensureQueue`, and `ulid` the string produced by
`generateMessageId()`. Parses the queue name, ensures the physical queue,
serializes the message, builds the task body, and submits it named (when
`opts?.idempotencyKey` is truthy) or anonymously. -/
def queue (ser : Str → Str) (c : JanWorldConfig) (lookup : LookupResult)
    (ulid : Str) (name : Str) (message : Str) (opts : Option QueueOpts) :
    DispatchOut :=
  match parseQueueName name with
  | .error e => ⟨[], Except.error e⟩
  | .ok (pfx, queueId) =>
    let jobName := Queues c pfx
    let er := ensureQueue c lookup jobName
    match er.outcome with
    | .error code => ⟨er.calls, Except.error (QError.externalError code)⟩
    | .ok _ =>
      let body := ser message
      let messageId := "msg_".data ++ ulid
      let qp := queuePath c jobName
      let task : TaskBody := ⟨queueId, body, messageId, optsKey opts, QueuePfx.str pfx⟩
      match optsKey opts with
      | some k =>
        if k = [] then
          ⟨er.calls ++ [ExtCall.createTask qp none task], Except.ok messageId⟩
        else
          ⟨er.calls ++ [ExtCall.createTask qp (some (taskPath c jobName k)) task],
            Except.ok messageId⟩
      | none =>
        ⟨er.calls ++ [ExtCall.createTask qp none task], Except.ok messageId⟩

/-- The task name of the first `createTask` call in a trace: `none` when
no task was submitted, `some name` otherwise (`name` itself is the
optional named identity). -/
def createTaskName : List ExtCall → Option (Option Str)
  | [] => none
  | ExtCall.createTask _ n _ :: _ => some n
  | _ :: rest => createTaskName rest

/-- A delivered task payload as `processTask` receives it at runtime. The
TypeScript type requires `prefix : QueuePrefix`, but the value arrives
from `request.json()` unchecked, so `pfx` (the `prefix` field) is any
string or absent. -/
structure TaskPayload where
  id : Str
  data : Str
  messageId : Str
  idempotencyKey : Option Str
  pfx : Option Str
deriving DecidableEq

/-- JavaScript string interpolation of a possibly-absent value:
`undefined` is stringified. -/
def jsStr : Option Str → Str
  | some s => s
  | none => "undefined".data

/-- The call `processTask` forwards into the embedded world:
`embeddedWorld.queue(queueName, message, { idempotencyKey })`. -/
structure EngineCall where
  queueName : Str
  message : Str
  idempotencyKey : Option Str
deriving DecidableEq

/-- `processTask` of the source (the Delivery Handler), parametrized by
its collaborators: `deser` is `transport.deserialize` and `schemaP` is
`QueuePayloadSchema.parse`, each failing with a thrown error message.
Deserializes the body, validates it, rebuilds the queue name as the
interpolation `` `${payload.prefix}${payload.id}` `` and forwards the
message into the embedded world. The returned `EngineCall` is that
forwarded call; an error means the throw propagated and no engine call
was made. -/
def processTask (deser : Str → Except Str Str) (schemaP : Str → Except Str Str)
    (p : TaskPayload) : Except Str EngineCall :=
  match deser p.data with
  | .error e => Except.error e
  | .ok body =>
    match schemaP body with
    | .error e => Except.error e
    | .ok message =>
      Except.ok ⟨jsStr p.pfx ++ p.id, message, p.idempotencyKey⟩

/-- The identity codec, a concrete instantiation of the transport and
schema collaborators used to evaluate the embedding on closed inputs. -/
def okCodec : Str → Except Str Str := fun s => Except.ok s

/-- A codec that always fails, used to evaluate the failure paths on
closed inputs. -/
def errCodec : Str → Except Str Str := fun _ => Except.error "bad".data

/-- The delivered payload of the end-to-end scenario in the spec. -/
def examplePayload : TaskPayload :=
  ⟨"abc123".data, "body".data, "01AB".data, none, some "__wkf_step_".data⟩

/-- A syntactically complete delivered payload whose `prefix` is not a
recognized namespace prefix. -/
def bogusPayload : TaskPayload :=
  ⟨"abc123".data, "body".data, "01AB".data, none, some "bogus_".data⟩

/-- A delivered payload whose `prefix` field is absent. -/
def noPfxPayload : TaskPayload :=
  ⟨"abc123".data, "body".data, "01AB".data, none, none⟩

/-- A concrete configuration with all optional fields absent. -/
def cfg0 : JanWorldConfig := ⟨[], "proj".data, "loc".data, none, none⟩

/-- A concrete configuration with `queueConcurrency` explicitly 0. -/
def cfgZero : JanWorldConfig := ⟨[], "proj".data, "loc".data, none, some 0⟩

/-- Modelled from the spec: the Identity Generator is `monotonicFactory()`
of the external `ulid` package, whose implementation is not part of this
repository. Per the spec it emits time-ordered identifiers, strictly
increasing across calls of one generator instance, tie-broken within the
same millisecond by incrementing an internal random component. The state
holds the last emitted time and random components. -/
structure UlidState where
  lastTime : Nat
  lastRand : Nat
deriving DecidableEq

/-- Modelled from the spec: one generator call at clock time `now` with
fresh randomness `rand`. Within the same millisecond (`now ≤ lastTime`)
the previous random component is incremented; otherwise the new time and
the fresh randomness are taken. The new state is the emitted identifier. -/
def ulidStep (s : UlidState) (now rand : Nat) : UlidState :=
  if now ≤ s.lastTime then ⟨s.lastTime, s.lastRand + 1⟩
  else ⟨now, rand⟩

/-- The identifiers emitted by a sequence of generator calls, each input
giving the clock time and the fresh randomness of one call. -/
def ulidRun (s : UlidState) : List (Nat × Nat) → List UlidState
  | [] => []
  | (t, r) :: rest => ulidStep s t r :: ulidRun (ulidStep s t r) rest

/-- Strict lexicographic comparison of lists, the order in which
JavaScript compares the corresponding strings. -/
def lexLt {α : Type} [LinearOrder α] : List α → List α → Bool
  | [], [] => false
  | [], _ :: _ => true
  | _ :: _, [] => false
  | a :: as, b :: bs => if a < b then true else if a = b then lexLt as bs else false

/-- Fixed-width big-endian base-32 digits of `n`: digit `i` of width `w`
is `n / 32 ^ (w - 1 - i) % 32`. -/
def encodeW : Nat → Nat → List Nat
  | 0, _ => []
  | w + 1, n => n / 32 ^ w % 32 :: encodeW w (n % 32 ^ w)

/-- The Crockford base-32 alphabet used by ULID text. -/
def crockAlphabet : Str := "0123456789ABCDEFGHJKMNPQRSTVWXYZ".data

/-- The character of one Crockford base-32 digit. -/
def crock (n : Nat) : Char := crockAlphabet.getD n '0'

/-- The 26-character ULID text of an emitted identifier: 10 time
characters then 16 random characters. -/
def ulidText (s : UlidState) : Str :=
  (encodeW 10 s.lastTime ++ encodeW 16 s.lastRand).map crock

/-- The message id string built by `queue`: `msg_` before the ULID text of
`generateMessageId()`. -/
def msgIdOf (s : UlidState) : Str := "msg_".data ++ ulidText s

/-- Numeric value of an emitted identifier, time-major. -/
def ulidVal (s : UlidState) : Nat := s.lastTime * 32 ^ 16 + s.lastRand

/-- Bounds within which the 26-character text is faithful: the time fits
10 and the random component 16 base-32 digits. -/
def inBounds (s : UlidState) : Prop :=
  s.lastTime < 32 ^ 10 ∧ s.lastRand < 32 ^ 16

instance (s : UlidState) : Decidable (inBounds s) :=
  inferInstanceAs (Decidable (s.lastTime < 32 ^ 10 ∧ s.lastRand < 32 ^ 16))

theorem append_drop_of_isPrefixOf {p s : Str} (h : p.isPrefixOf s = true) :
    p ++ s.drop p.length = s := by
  induction p generalizing s with
  | nil => simp
  | cons a as ih =>
    cases s with
    | nil => simp [List.isPrefixOf] at h
    | cons b bs =>
      simp only [List.isPrefixOf, Bool.and_eq_true, beq_iff_eq] at h
      obtain ⟨hab, hrest⟩ := h
      subst hab
      simpa using ih hrest

/-- Claim C1: every queue name that starts with a recognized namespace
prefix parses into a prefix and a suffix id whose concatenation is the
original name (round-trip law of the Queue Namespace Resolver). -/
theorem parseQueueName_roundtrip (name : Str)
    (h : wkfStep.isPrefixOf name = true ∨ wkfWorkflow.isPrefixOf name = true) :
    ∃ p s, parseQueueName name = Except.ok (p, s) ∧ QueuePfx.str p ++ s = name := by
  by_cases hs : wkfStep.isPrefixOf name = true
  · exact ⟨QueuePfx.step, name.drop wkfStep.length,
      by simp [parseQueueName, hs],
      by simpa [QueuePfx.str] using append_drop_of_isPrefixOf hs⟩
  · have hw : wkfWorkflow.isPrefixOf name = true := h.resolve_left hs
    exact ⟨QueuePfx.workflow, name.drop wkfWorkflow.length,
      by simp [parseQueueName, hs, hw],
      by simpa [QueuePfx.str] using append_drop_of_isPrefixOf hw⟩

/-- Witness for C1 at the queue name `__wkf_step_abc123`. -/
theorem parseQueueName_roundtrip_witness :
    (wkfStep.isPrefixOf "__wkf_step_abc123".data = true ∨
      wkfWorkflow.isPrefixOf "__wkf_step_abc123".data = true) ∧
    ∃ p s, parseQueueName "__wkf_step_abc123".data = Except.ok (p, s) ∧
      QueuePfx.str p ++ s = "__wkf_step_abc123".data :=
  ⟨Or.inl (by decide), parseQueueName_roundtrip _ (Or.inl (by decide))⟩

/-- Claim C2: a delivered envelope whose body deserializes and validates
is forwarded to the embedded engine's enqueue with queue name exactly
`prefix + id`, the deserialized message, and the envelope's idempotency
key. -/
theorem processTask_forwards (deser schemaP : Str → Except Str Str)
    (p : TaskPayload) (pr body msg : Str) (hp : p.pfx = some pr)
    (hd : deser p.data = Except.ok body) (hs : schemaP body = Except.ok msg) :
    processTask deser schemaP p = Except.ok ⟨pr ++ p.id, msg, p.idempotencyKey⟩ := by
  simp [processTask, hd, hs, jsStr, hp]

/-- Witness for C2 at the end-to-end scenario of the spec: an envelope
with id `abc123` and prefix `__wkf_step_` is forwarded with queue name
`__wkf_step_abc123`. -/
theorem processTask_forwards_witness :
    (examplePayload.pfx = some "__wkf_step_".data ∧
      okCodec examplePayload.data = Except.ok "body".data ∧
      okCodec "body".data = Except.ok "body".data) ∧
    processTask okCodec okCodec examplePayload
      = Except.ok ⟨"__wkf_step_abc123".data, "body".data, none⟩ :=
  ⟨⟨rfl, rfl, rfl⟩,
    processTask_forwards okCodec okCodec examplePayload
      "__wkf_step_".data "body".data "body".data rfl rfl rfl⟩

/-- Counterexample to claim C4: the Delivery Handler does not reject an
envelope with an unrecognized or absent namespace prefix; with a valid
body it forwards the message into the embedded engine (queue names
`bogus_abc123` and `undefinedabc123` here) instead of failing with
MalformedPayload and making no engine call. -/
theorem processTask_no_validation_cex :
    processTask okCodec okCodec bogusPayload
      = Except.ok ⟨"bogus_abc123".data, "body".data, none⟩ ∧
    processTask okCodec okCodec noPfxPayload
      = Except.ok ⟨"undefinedabc123".data, "body".data, none⟩ :=
  ⟨rfl, rfl⟩

/-- Claim C4 as amended: the Delivery Handler validates only the body. It
fails (propagating the thrown error, with no engine call) exactly when
deserialization or schema validation fails; it performs no namespace
prefix check, forwarding `prefix + id` to the embedded engine even when
the prefix is unrecognized or absent (an absent prefix is stringified by
the template literal). -/
theorem processTask_amended (deser schemaP : Str → Except Str Str)
    (p : TaskPayload) :
    (∀ e, deser p.data = Except.error e →
      processTask deser schemaP p = Except.error e) ∧
    (∀ body e, deser p.data = Except.ok body → schemaP body = Except.error e →
      processTask deser schemaP p = Except.error e) ∧
    (∀ body msg, deser p.data = Except.ok body → schemaP body = Except.ok msg →
      processTask deser schemaP p
        = Except.ok ⟨jsStr p.pfx ++ p.id, msg, p.idempotencyKey⟩) := by
  refine ⟨?_, ?_, ?_⟩
  · intro e he
    simp [processTask, he]
  · intro body e hd hs
    simp [processTask, hd, hs]
  · intro body msg hd hs
    simp [processTask, hd, hs]

/-- Witness for the amended C4: a failing deserialization propagates and
makes no engine call. -/
theorem processTask_amended_witness :
    errCodec bogusPayload.data = Except.error "bad".data ∧
    processTask errCodec okCodec bogusPayload = Except.error "bad".data :=
  ⟨rfl, (processTask_amended errCodec okCodec bogusPayload).1 "bad".data rfl⟩

theorem createTaskName_ensure_append (c : JanWorldConfig) (lookup : LookupResult)
    (q : Str) (rest : List ExtCall) :
    createTaskName ((ensureQueue c lookup q).calls ++ rest) = createTaskName rest := by
  cases lookup with
  | ok => simp [ensureQueue, createTaskName]
  | err code =>
    by_cases h : code = 5 <;> simp [ensureQueue, h, createTaskName]

/-- Claim C3: with an idempotency key, the submitted task identity is the
task path derived from project, location, physical queue and key, so two
dispatches with the same key and the same recognized prefix submit the
same task name; without a key the task is submitted anonymously
(no name). -/
theorem queue_idempotent_naming (ser1 ser2 : Str → Str) (c : JanWorldConfig)
    (l1 l2 : LookupResult) (u1 u2 n1 n2 m1 m2 k id1 id2 : Str) (pfx : QueuePfx)
    (h1 : parseQueueName n1 = Except.ok (pfx, id1))
    (h2 : parseQueueName n2 = Except.ok (pfx, id2))
    (e1 : (ensureQueue c l1 (Queues c pfx)).outcome = Except.ok ())
    (e2 : (ensureQueue c l2 (Queues c pfx)).outcome = Except.ok ())
    (hk : k ≠ []) :
    createTaskName (queue ser1 c l1 u1 n1 m1 (some ⟨some k⟩)).calls
        = some (some (taskPath c (Queues c pfx) k)) ∧
    createTaskName (queue ser2 c l2 u2 n2 m2 (some ⟨some k⟩)).calls
        = some (some (taskPath c (Queues c pfx) k)) ∧
    createTaskName (queue ser1 c l1 u1 n1 m1 none).calls = some none := by
  refine ⟨?_, ?_, ?_⟩
  · simp only [queue, h1, e1, optsKey, hk, ite_false]
    rw [createTaskName_ensure_append]
    rfl
  · simp only [queue, h2, e2, optsKey, hk, ite_false]
    rw [createTaskName_ensure_append]
    rfl
  · simp only [queue, h1, e1, optsKey]
    rw [createTaskName_ensure_append]
    rfl

/-- Witness for C3: two dispatches to step queues with the key `key1`
both derive the task path of the steps queue and that key. -/
theorem queue_idempotent_naming_witness :
    (parseQueueName "__wkf_step_a".data = Except.ok (QueuePfx.step, "a".data) ∧
      parseQueueName "__wkf_step_b".data = Except.ok (QueuePfx.step, "b".data) ∧
      (ensureQueue cfg0 LookupResult.ok (Queues cfg0 QueuePfx.step)).outcome
        = Except.ok () ∧
      "key1".data ≠ []) ∧
    createTaskName
        (queue id cfg0 LookupResult.ok "u1".data "__wkf_step_a".data "m1".data
          (some ⟨some "key1".data⟩)).calls
      = some (some (taskPath cfg0 (Queues cfg0 QueuePfx.step) "key1".data)) ∧
    createTaskName
        (queue id cfg0 LookupResult.ok "u2".data "__wkf_step_b".data "m2".data
          (some ⟨some "key1".data⟩)).calls
      = some (some (taskPath cfg0 (Queues cfg0 QueuePfx.step) "key1".data)) ∧
    createTaskName
        (queue id cfg0 LookupResult.ok "u1".data "__wkf_step_a".data "m1".data
          none).calls
      = some none :=
  ⟨⟨rfl, rfl, rfl, by decide⟩,
    queue_idempotent_naming id id cfg0 LookupResult.ok LookupResult.ok
      "u1".data "u2".data "__wkf_step_a".data "__wkf_step_b".data
      "m1".data "m2".data "key1".data "a".data "b".data QueuePfx.step
      rfl rfl rfl rfl (by decide)⟩

/-- Claim C5: a NOT_FOUND lookup (code 5) makes `ensureQueue` create the
queue under the configured project/location with the configured rate
(default 10) and return normally; any other lookup error propagates
unchanged with no create call. -/
theorem ensureQueue_not_found_creates (c : JanWorldConfig) (q : Str) :
    ensureQueue c (LookupResult.err 5) q
      = ⟨[ExtCall.getQueue (queuePath c q),
          ExtCall.createQueue (locationPath c) (queuePath c q) (effRate c)],
         Except.ok ()⟩ ∧
    (c.queueConcurrency = none → effRate c = 10) ∧
    (∀ n, c.queueConcurrency = some n → n ≠ 0 → effRate c = n) ∧
    (∀ code, code ≠ 5 →
      ensureQueue c (LookupResult.err code) q
        = ⟨[ExtCall.getQueue (queuePath c q)], Except.error code⟩) := by
  refine ⟨rfl, ?_, ?_, ?_⟩
  · intro h
    simp [effRate, h]
  · intro n h hn
    simp [effRate, h, hn]
  · intro code hc
    simp [ensureQueue, hc]

/-- Witness for C5: with no configured concurrency the created rate is 10,
and the error code 7 propagates with no create. -/
theorem ensureQueue_not_found_creates_witness :
    (cfg0.queueConcurrency = none ∧ (7 : Nat) ≠ 5) ∧
    effRate cfg0 = 10 ∧
    ensureQueue cfg0 (LookupResult.err 7) "q".data
      = ⟨[ExtCall.getQueue (queuePath cfg0 "q".data)], Except.error 7⟩ :=
  ⟨⟨rfl, by decide⟩,
    (ensureQueue_not_found_creates cfg0 "q".data).2.1 rfl,
    (ensureQueue_not_found_creates cfg0 "q".data).2.2.2 7 (by decide)⟩

/-- Claim C6: dispatching a queue name with no recognized prefix throws
`InvalidQueueName` and makes no external call at all (empty call trace:
no queue lookup, no queue creation, no task submission). -/
theorem queue_invalid_name_no_calls (ser : Str → Str) (c : JanWorldConfig)
    (lookup : LookupResult) (ulid name message : Str) (opts : Option QueueOpts)
    (h1 : wkfStep.isPrefixOf name = false)
    (h2 : wkfWorkflow.isPrefixOf name = false) :
    queue ser c lookup ulid name message opts
      = ⟨[], Except.error (QError.invalidQueueName name)⟩ := by
  simp [queue, parseQueueName, h1, h2]

/-- Witness for C6 at the unrecognized queue name `bogus`. -/
theorem queue_invalid_name_no_calls_witness :
    (wkfStep.isPrefixOf "bogus".data = false ∧
      wkfWorkflow.isPrefixOf "bogus".data = false) ∧
    queue id cfg0 LookupResult.ok "u".data "bogus".data "m".data none
      = ⟨[], Except.error (QError.invalidQueueName "bogus".data)⟩ :=
  ⟨⟨by decide, by decide⟩,
    queue_invalid_name_no_calls id cfg0 LookupResult.ok "u".data "bogus".data
      "m".data none (by decide) (by decide)⟩

/-- Claim C8: physical queue names are the configured name prefix plus the
fixed per-kind suffix: the workflow kind maps to `{prefix}flows`, the step
kind to `{prefix}steps`, the default prefix is `workflow-`, and the two
kinds get distinct names. -/
theorem queues_mapping (c : JanWorldConfig) :
    Queues c QueuePfx.workflow = namePfx c ++ "flows".data ∧
    Queues c QueuePfx.step = namePfx c ++ "steps".data ∧
    (c.queuePfx = none → namePfx c = "workflow-".data) ∧
    Queues c QueuePfx.workflow ≠ Queues c QueuePfx.step := by
  refine ⟨rfl, rfl, ?_, ?_⟩
  · intro h
    simp [namePfx, h]
  · intro h
    simp only [Queues] at h
    have := List.append_cancel_left h
    exact absurd this (by decide)

/-- Witness for C8: with no configured prefix the names are
`workflow-flows` and `workflow-steps`. -/
theorem queues_mapping_witness :
    cfg0.queuePfx = none ∧ namePfx cfg0 = "workflow-".data :=
  ⟨rfl, (queues_mapping cfg0).2.2.1 rfl⟩

/-- Claim C9: two sequential `ensure` runs on the same physical queue
against the service model make at most one create call in total, and the
second run makes none (idempotent provisioning: the first run creates or
finds the resource, so the second lookup succeeds). -/
theorem ensure_twice_at_most_one_create (c : JanWorldConfig) (exs : List Str)
    (q : Str) :
    countCreates ((runEnsure c exs q).2
        ++ (runEnsure c (runEnsure c exs q).1 q).2) ≤ 1 ∧
    countCreates (runEnsure c (runEnsure c exs q).1 q).2 = 0 := by
  by_cases h : queuePath c q ∈ exs
  · simp [runEnsure, ensureQueue, svcLookup, h, stepState, countCreates]
  · simp [runEnsure, ensureQueue, svcLookup, h, stepState, countCreates]

/-- Claim C10: an explicitly configured `queueConcurrency` of 0 is treated
as unset by the falsy fallback: the queue is created with the default
rate 10, not 0. -/
theorem rate_zero_treated_as_unset (c : JanWorldConfig) (q : Str)
    (h : c.queueConcurrency = some 0) :
    (ensureQueue c (LookupResult.err 5) q).calls
      = [ExtCall.getQueue (queuePath c q),
         ExtCall.createQueue (locationPath c) (queuePath c q) 10] := by
  simp [ensureQueue, effRate, h]

/-- Witness for C10 at a configuration with `queueConcurrency = 0`. -/
theorem rate_zero_treated_as_unset_witness :
    cfgZero.queueConcurrency = some 0 ∧
    (ensureQueue cfgZero (LookupResult.err 5) "q".data).calls
      = [ExtCall.getQueue (queuePath cfgZero "q".data),
         ExtCall.createQueue (locationPath cfgZero) (queuePath cfgZero "q".data) 10] :=
  ⟨rfl, rate_zero_treated_as_unset cfgZero "q".data rfl⟩

theorem lexLt_cons {α : Type} [LinearOrder α] (a b : α) (as bs : List α) :
    lexLt (a :: as) (b :: bs)
      = if a < b then true else if a = b then lexLt as bs else false := rfl

theorem lexLt_irrefl {α : Type} [LinearOrder α] (l : List α) :
    lexLt l l = false := by
  induction l with
  | nil => rfl
  | cons a as ih => simp [lexLt_cons, ih]

theorem ne_of_lexLt {α : Type} [LinearOrder α] {xs ys : List α}
    (h : lexLt xs ys = true) : xs ≠ ys := by
  intro heq
  rw [heq, lexLt_irrefl] at h
  exact absurd h (by simp)

theorem lexLt_append_left {α : Type} [LinearOrder α] (p xs ys : List α) :
    lexLt (p ++ xs) (p ++ ys) = lexLt xs ys := by
  induction p with
  | nil => rfl
  | cons a as ih => simp [lexLt_cons, ih]

theorem lexLt_append_of_lt {α : Type} [LinearOrder α] (xs : List α) :
    ∀ ys us vs : List α, xs.length = ys.length → lexLt xs ys = true →
      lexLt (xs ++ us) (ys ++ vs) = true := by
  induction xs with
  | nil =>
    intro ys us vs hlen h
    cases ys with
    | nil => simp [lexLt] at h
    | cons b bs => simp at hlen
  | cons a as ih =>
    intro ys us vs hlen h
    cases ys with
    | nil => simp at hlen
    | cons b bs =>
      simp only [List.length_cons] at hlen
      rw [lexLt_cons] at h
      by_cases hab : a < b
      · simp [List.cons_append, lexLt_cons, hab]
      · rw [if_neg hab] at h
        by_cases heq : a = b
        · rw [if_pos heq] at h
          subst heq
          simp only [List.cons_append, lexLt_cons, if_neg hab, if_pos rfl]
          exact ih bs us vs (by omega) h
        · rw [if_neg heq] at h
          exact absurd h (by simp)

theorem encodeW_length (w n : Nat) : (encodeW w n).length = w := by
  induction w generalizing n with
  | zero => rfl
  | succ w ih => simp [encodeW, ih]

theorem encodeW_digits (w n : Nat) : ∀ x ∈ encodeW w n, x < 32 := by
  induction w generalizing n with
  | zero => simp [encodeW]
  | succ w ih =>
    intro x hx
    simp only [encodeW, List.mem_cons] at hx
    rcases hx with h | h
    · subst h
      exact Nat.mod_lt _ (by norm_num)
    · exact ih _ x h

theorem encodeW_lt {w a b : Nat} (hab : a < b) (hb : b < 32 ^ w) :
    lexLt (encodeW w a) (encodeW w b) = true := by
  induction w generalizing a b with
  | zero =>
    simp only [pow_zero, Nat.lt_one_iff] at hb
    omega
  | succ w ih =>
    have hpos : 0 < 32 ^ w := Nat.pos_pow_of_pos w (by norm_num)
    have ha : a < 32 ^ (w + 1) := lt_trans hab hb
    have hqa : a / 32 ^ w < 32 := by
      rw [Nat.div_lt_iff_lt_mul hpos]
      calc a < 32 ^ (w + 1) := ha
        _ = 32 * 32 ^ w := by ring
    have hqb : b / 32 ^ w < 32 := by
      rw [Nat.div_lt_iff_lt_mul hpos]
      calc b < 32 ^ (w + 1) := hb
        _ = 32 * 32 ^ w := by ring
    simp only [encodeW, Nat.mod_eq_of_lt hqa, Nat.mod_eq_of_lt hqb, lexLt_cons]
    have hq : a / 32 ^ w ≤ b / 32 ^ w := Nat.div_le_div_right (le_of_lt hab)
    rcases lt_or_eq_of_le hq with hqlt | hqeq
    · simp [hqlt]
    · rw [hqeq]
      simp only [lt_self_iff_false, if_false, if_pos rfl]
      apply ih
      · have hda := Nat.div_add_mod a (32 ^ w)
        have hdb := Nat.div_add_mod b (32 ^ w)
        rw [hqeq] at hda
        omega
      · exact Nat.mod_lt _ hpos

theorem crock_lt_iff : ∀ i < 32, ∀ j < 32, (crock i < crock j ↔ i < j) := by
  decide

theorem lexLt_map_crock (xs : List Nat) :
    ∀ ys : List Nat, (∀ x ∈ xs, x < 32) → (∀ y ∈ ys, y < 32) →
      lexLt xs ys = true → lexLt (xs.map crock) (ys.map crock) = true := by
  induction xs with
  | nil =>
    intro ys hx hy h
    cases ys with
    | nil => simp [lexLt] at h
    | cons b bs => simp [lexLt]
  | cons a as ih =>
    intro ys hx hy h
    cases ys with
    | nil => simp [lexLt] at h
    | cons b bs =>
      rw [lexLt_cons] at h
      have ha : a < 32 := hx a (by simp)
      have hb : b < 32 := hy b (by simp)
      by_cases hab : a < b
      · have hc : crock a < crock b := (crock_lt_iff a ha b hb).mpr hab
        simp [List.map_cons, lexLt_cons, hc]
      · rw [if_neg hab] at h
        by_cases heq : a = b
        · rw [if_pos heq] at h
          subst heq
          simp only [List.map_cons, lexLt_cons, lt_self_iff_false, if_false,
            if_pos rfl]
          exact ih bs (fun x hx' => hx x (by simp [hx']))
            (fun y hy' => hy y (by simp [hy'])) h
        · rw [if_neg heq] at h
          exact absurd h (by simp)

theorem val_lt_step (s : UlidState) (t r : Nat) (h : s.lastRand < 32 ^ 16) :
    ulidVal s < ulidVal (ulidStep s t r) := by
  have hR : (32 : Nat) ^ 16 = 1208925819614629174706176 := by norm_num
  unfold ulidStep
  by_cases ht : t ≤ s.lastTime
  · rw [if_pos ht]
    simp only [ulidVal]
    omega
  · rw [if_neg ht]
    simp only [ulidVal]
    rw [hR] at h ⊢
    omega

theorem val_cases {a b : UlidState} (har : a.lastRand < 32 ^ 16)
    (hbr : b.lastRand < 32 ^ 16) (h : ulidVal a < ulidVal b) :
    a.lastTime < b.lastTime ∨ (a.lastTime = b.lastTime ∧ a.lastRand < b.lastRand) := by
  have hR : (32 : Nat) ^ 16 = 1208925819614629174706176 := by norm_num
  unfold ulidVal at h
  rw [hR] at h har hbr
  omega

theorem msgId_lt_of_val (a b : UlidState) (ha : inBounds a) (hb : inBounds b)
    (h : ulidVal a < ulidVal b) : lexLt (msgIdOf a) (msgIdOf b) = true := by
  obtain ⟨hat, har⟩ := ha
  obtain ⟨hbt, hbr⟩ := hb
  unfold msgIdOf ulidText
  rw [lexLt_append_left]
  have hdigits : lexLt (encodeW 10 a.lastTime ++ encodeW 16 a.lastRand)
      (encodeW 10 b.lastTime ++ encodeW 16 b.lastRand) = true := by
    rcases val_cases har hbr h with hlt | ⟨heq, hrand⟩
    · exact lexLt_append_of_lt _ _ _ _ (by rw [encodeW_length, encodeW_length])
        (encodeW_lt hlt hbt)
    · rw [heq, lexLt_append_left]
      exact encodeW_lt hrand hbr
  apply lexLt_map_crock
  · intro x hx
    rcases List.mem_append.mp hx with h' | h'
    · exact encodeW_digits 10 _ x h'
    · exact encodeW_digits 16 _ x h'
  · intro y hy
    rcases List.mem_append.mp hy with h' | h'
    · exact encodeW_digits 10 _ y h'
    · exact encodeW_digits 16 _ y h'
  · exact hdigits

theorem ulidRun_cons (s : UlidState) (t r : Nat) (rest : List (Nat × Nat)) :
    ulidRun s ((t, r) :: rest) = ulidStep s t r :: ulidRun (ulidStep s t r) rest :=
  rfl

theorem ulidRun_chain (inputs : List (Nat × Nat)) (s : UlidState)
    (hb : ∀ x ∈ ulidRun s inputs, x.lastRand < 32 ^ 16) :
    List.Chain' (fun a b => ulidVal a < ulidVal b) (ulidRun s inputs) := by
  induction inputs generalizing s with
  | nil => simp [ulidRun]
  | cons tr rest ih =>
    obtain ⟨t, r⟩ := tr
    rw [ulidRun_cons] at hb ⊢
    cases rest with
    | nil => simp [ulidRun]
    | cons tr2 rest2 =>
      obtain ⟨t2, r2⟩ := tr2
      have hb1 : (ulidStep s t r).lastRand < 32 ^ 16 := hb _ (by simp)
      have hbtail : ∀ x ∈ ulidRun (ulidStep s t r) ((t2, r2) :: rest2),
          x.lastRand < 32 ^ 16 := fun x hx => hb x (List.mem_cons_of_mem _ hx)
      have htail := ih (ulidStep s t r) hbtail
      rw [ulidRun_cons] at htail ⊢
      exact List.chain'_cons.mpr ⟨val_lt_step _ _ _ hb1, htail⟩

/-- Claim C7 (Identity Generator modelled from the spec, the `ulid`
monotonic factory being an external package): along any call sequence of
one generator instance whose emitted identifiers stay within the
26-character encoding bounds, the message id strings are pairwise
distinct and strictly lexicographically increasing in call order — so the
list in call order is already lexicographically sorted, and sorting the
ids of non-overlapping calls reproduces call order. -/
theorem messageIds_monotone (s : UlidState) (inputs : List (Nat × Nat))
    (hb : ∀ x ∈ ulidRun s inputs, inBounds x) :
    List.Pairwise (fun i1 i2 => lexLt i1 i2 = true ∧ i1 ≠ i2)
      ((ulidRun s inputs).map msgIdOf) := by
  have hchain := ulidRun_chain inputs s (fun x hx => (hb x hx).2)
  have h1 : List.Chain' (· < ·) ((ulidRun s inputs).map ulidVal) :=
    (List.chain'_map _).mpr hchain
  have h2 := List.chain'_iff_pairwise.mp h1
  rw [List.pairwise_map] at h2
  rw [List.pairwise_map]
  apply List.Pairwise.imp_of_mem ?_ h2
  intro a b hma hmb hab
  have hl := msgId_lt_of_val a b (hb a hma) (hb b hmb) hab
  exact ⟨hl, ne_of_lexLt hl⟩

/-- Witness for C7: three calls, two within the same millisecond. -/
theorem messageIds_monotone_witness :
    (∀ x ∈ ulidRun ⟨0, 0⟩ [(1, 3), (1, 5), (2, 0)], inBounds x) ∧
    List.Pairwise (fun i1 i2 => lexLt i1 i2 = true ∧ i1 ≠ i2)
      ((ulidRun ⟨0, 0⟩ [(1, 3), (1, 5), (2, 0)]).map msgIdOf) :=
  ⟨by decide, messageIds_monotone ⟨0, 0⟩ [(1, 3), (1, 5), (2, 0)] (by decide)⟩
